import Mathlib

/-!
Verification of the portfolio application: the position ledger
(`api/portfolio_actions.py`), the spreadsheet importer and HTTP upload
surface (`api/main.py`), and the agent tools (`agent/tools/tools.py`).

Modelling conventions:
* Python floats are modelled as exact rationals (`ℚ`); the properties under
  study concern ordering and exact arithmetic, not binary rounding.
* The SQLAlchemy `Position` table is modelled as a list of rows in insertion
  order; `db.scalar(select(...).where(...))` returns the first matching row.
* Raised exceptions are modelled with `Except`; `None` with `Option`.
* Python string methods `upper`/`lower`/`strip` are modelled character-wise
  (tickers and column names in this system are basic-latin text).
* A pandas `DataFrame` is modelled as a column-name list plus one
  association list (column name, cell) per row; a missing value (`NaN`)
  is the cell `Cell.blank`.
-/

deriving instance DecidableEq for Except

/-- Models Python `s.upper()` character-wise. -/
def upperStr (s : String) : String :=
  String.mk (s.data.map Char.toUpper)

/-- Models Python `s.lower()` character-wise. -/
def lowerStr (s : String) : String :=
  String.mk (s.data.map Char.toLower)

/-- Models Python `s.strip()`: remove leading and trailing whitespace. -/
def stripStr (s : String) : String :=
  String.mk (((s.data.dropWhile Char.isWhitespace).reverse.dropWhile
    Char.isWhitespace).reverse)

/-- A persisted `Position` row (`data.models.Position`): ticker key plus
quantity and the two nullable price fields. -/
structure Position where
  ticker : String
  qty : ℚ
  exec_price : Option ℚ
  current_price : Option ℚ
deriving DecidableEq

/-- Models `x if x is not None else y` (the price-defaulting pattern used in
`insert_position`). -/
def orElseO (x y : Option ℚ) : Option ℚ :=
  match x with
  | some v => some v
  | none => y

/-- `get_position(db, ticker)`: first row whose ticker equals
`ticker.upper()`. -/
def get_position (db : List Position) (ticker : String) : Option Position :=
  db.find? (fun p => p.ticker == upperStr ticker)

/-- `db.delete(pos)` where `pos` is the first row matching ticker `t`. -/
def removeFirst (db : List Position) (t : String) : List Position :=
  match db with
  | [] => []
  | p :: rest => if p.ticker == t then rest else p :: removeFirst rest t

/-- In-place mutation of the first row matching ticker `t` to `q`. -/
def replaceFirst (db : List Position) (t : String) (q : Position) :
    List Position :=
  match db with
  | [] => []
  | p :: rest => if p.ticker == t then q :: rest else p :: replaceFirst rest t q

/-- `insert_position(db, ticker, qty_delta, exec_price, current_price)`:
upsert of one ledger row.  Returns the Python return value together with the
table after the call (`db.add`/mutation/`db.delete` followed by commit).
The source uppercases `ticker` once and then calls `get_position`, which
uppercases again; since uppercasing is idempotent (`upperStr_idem` below) the
lookup is modelled with a single `upperStr`. -/
def insert_position (db : List Position) (ticker : String) (qty_delta : ℚ)
    (exec_price : Option ℚ) (current_price : Option ℚ) :
    Option Position × List Position :=
  let t := upperStr ticker
  match get_position db ticker with
  | none =>
    let pos : Position :=
      { ticker := t, qty := max qty_delta 0,
        exec_price := orElseO exec_price current_price,
        current_price := orElseO current_price exec_price }
    (some pos, db ++ [pos])
  | some pos =>
    let newQty := pos.qty + qty_delta
    let pos' : Position :=
      { ticker := pos.ticker, qty := newQty,
        exec_price := orElseO exec_price pos.exec_price,
        current_price := orElseO current_price pos.current_price }
    if newQty ≤ 0 then (none, removeFirst db t)
    else (some pos', replaceFirst db t pos')

/-- The error taxonomy of the ledger mutations: `ValueError("Quantity must be
positive.")`, `ValueError("Not enough shares to sell.")` and the failure of
the `assert pos is not None` in `buy_stock`. -/
inductive LedgerError where
  | invalidQuantity
  | insufficientShares
  | assertionFailed
deriving DecidableEq

/-- `buy_stock(db, ticker, qty, exec_price, current_price)`. -/
def buy_stock (db : List Position) (ticker : String) (qty : ℚ)
    (exec_price : Option ℚ) (current_price : Option ℚ) :
    Except LedgerError (Position × List Position) :=
  if qty ≤ 0 then .error .invalidQuantity
  else
    match insert_position db ticker qty exec_price current_price with
    | (some pos, db') => .ok (pos, db')
    | (none, _) => .error .assertionFailed

/-- `sell_stock(db, ticker, qty)`. -/
def sell_stock (db : List Position) (ticker : String) (qty : ℚ) :
    Except LedgerError (Option Position × List Position) :=
  if qty ≤ 0 then .error .invalidQuantity
  else
    match get_position db ticker with
    | none => .error .insufficientShares
    | some pos =>
      if pos.qty < qty then .error .insufficientShares
      else .ok (insert_position db ticker (-qty) none none)

/-- The table after a `buy_stock` call, whether or not it raised.  The two
`ValueError` guards run before any write; the `assert` runs after the commit
inside `insert_position`, so its failure leaves the committed table. -/
def buyState (db : List Position) (ticker : String) (qty : ℚ)
    (exec_price : Option ℚ) (current_price : Option ℚ) : List Position :=
  if qty ≤ 0 then db
  else (insert_position db ticker qty exec_price current_price).2

/-- The table after a `sell_stock` call, whether or not it raised.  Both
guards run before any write. -/
def sellState (db : List Position) (ticker : String) (qty : ℚ) :
    List Position :=
  if qty ≤ 0 then db
  else
    match get_position db ticker with
    | none => db
    | some pos =>
      if pos.qty < qty then db
      else (insert_position db ticker (-qty) none none).2

/-- The JSON object built by `_position_to_dict` in `agent/tools/tools.py`;
the empty dict `{}` is the all-`none` record. -/
structure ToolRecord where
  ticker : Option String
  qty : Option ℚ
  exec_price : Option ℚ
  current_price : Option ℚ
deriving DecidableEq

/-- `_position_to_dict(p)`. -/
def position_to_dict (p : Option Position) : ToolRecord :=
  match p with
  | none => { ticker := none, qty := none, exec_price := none,
              current_price := none }
  | some q => { ticker := some q.ticker, qty := some q.qty,
                exec_price := q.exec_price, current_price := q.current_price }

/-- The `buy_stock` agent tool: calls the mutator and converts the returned
position to a dict (the per-call session open/close has no ledger effect). -/
def buy_stock_tool (db : List Position) (ticker : String) (qty : ℚ)
    (exec_price : Option ℚ) (current_price : Option ℚ) :
    Except LedgerError (ToolRecord × List Position) :=
  match buy_stock db ticker qty exec_price current_price with
  | .ok (pos, db') => .ok (position_to_dict (some pos), db')
  | .error e => .error e

/-- The documented data-model invariant: every persisted row has `qty > 0`. -/
def PosInv (db : List Position) : Prop :=
  ∀ p ∈ db, 0 < p.qty

/-- The ticker column is the table's unique key (`data.models.Position`), so
row lists representing a table state have pairwise distinct tickers. -/
def TickersNodup (db : List Position) : Prop :=
  (db.map Position.ticker).Nodup

/-- A spreadsheet cell: a missing value (pandas `NaN`), a string, or a
number.  `pd.to_numeric(..., errors="coerce")` keeps numbers and sends
everything else to `blank`; numeric-looking strings (which pandas would also
parse) do not occur in any property studied here. -/
inductive Cell where
  | blank
  | str (s : String)
  | num (q : ℚ)
deriving DecidableEq

/-- One spreadsheet row: an association list from column name to cell. -/
abbrev Row := List (String × Cell)

/-- A pandas `DataFrame`: column labels plus rows. -/
structure DataFrame where
  columns : List String
  rows : List Row
deriving DecidableEq

/-- `row[c]` / `row.get(c)`: the cell under column `c`; a missing entry
reads as `NaN`.  (Duplicate column labels do not arise in the pipelines
studied here, so first-occurrence semantics is faithful.) -/
def getCell (r : Row) (c : String) : Cell :=
  match r with
  | [] => .blank
  | kv :: rest => if kv.1 == c then kv.2 else getCell rest c

/-- Column assignment on one row: replace the entry for `c`, or append it
when the column is new. -/
def setCell (r : Row) (c : String) (v : Cell) : Row :=
  match r with
  | [] => [(c, v)]
  | kv :: rest => if kv.1 == c then (kv.1, v) :: rest else kv :: setCell rest c v

/-- Relabel the keys of one row with `f`. -/
def mapColsRow (f : String → String) (r : Row) : Row :=
  r.map (fun kv => (f kv.1, kv.2))

/-- Relabel all column labels with `f` (pandas `rename` / assignment to
`df.columns`). -/
def mapCols (f : String → String) (df : DataFrame) : DataFrame :=
  { columns := df.columns.map f, rows := df.rows.map (mapColsRow f) }

/-- Column assignment on a whole frame, `df[c] = ...`; the generator sees
the row so derived columns can read several cells. -/
def setCol (df : DataFrame) (c : String) (g : Row → Cell) : DataFrame :=
  { columns := if c ∈ df.columns then df.columns else df.columns ++ [c],
    rows := df.rows.map (fun r => setCell r c (g r)) }

/-- `str(x)` on a cell (pandas `.astype(str)`): `NaN` prints as the string
`"nan"`, numbers as their decimal text. -/
def cellStr (c : Cell) : String :=
  match c with
  | .blank => "nan"
  | .str s => s
  | .num q => toString q

/-- `pd.to_numeric(x, errors="coerce")` on one cell. -/
def toNumeric (c : Cell) : Option ℚ :=
  match c with
  | .num q => some q
  | _ => none

/-- `pd.notna`. -/
def notna (c : Cell) : Bool :=
  match c with
  | .blank => false
  | _ => true

/-- `pd.to_numeric(x, errors="coerce")` as a cell transform: a non-numeric
value becomes `NaN`. -/
def coerceCell (c : Cell) : Cell :=
  match toNumeric c with
  | some q => .num q
  | none => .blank

/-- `pd.to_numeric(x, errors="coerce").fillna(0.0)` as a cell transform. -/
def fillZeroCell (c : Cell) : Cell :=
  match toNumeric c with
  | some q => .num q
  | none => .num 0

/-- The exact-match column alias table `RENAME` in
`api/portfolio_actions.py`. -/
def RENAME : List (String × String) :=
  [("Ticker (RIC)", "ticker"), ("Company Name", "company"),
   ("quantity", "qty")]

/-- First-match association lookup (Python dict access). -/
def lookupAssoc (m : List (String × String)) (k : String) : Option String :=
  match m.find? (fun kv => kv.1 == k) with
  | some kv => some kv.2
  | none => none

/-- Apply `RENAME` to one column label; unknown labels are kept. -/
def renameMin (c : String) : String :=
  match lookupAssoc RENAME c with
  | some v => v
  | none => c

/-- Errors of the ingestion pipeline: a missing-columns `ValueError`
(the spec's `SchemaError`) or a `float()` conversion failure. -/
inductive ImportError where
  | schemaError (msg : String)
  | convError
deriving DecidableEq

/-- `df_from_excel_bytes` after `pd.read_excel`: rename known columns,
require `ticker` and `qty` among the lowercased labels, lowercase all
labels, uppercase the stringified ticker, and coerce `qty` to numbers with
`NaN` filled by `0.0`. -/
def df_from_excel_bytes (df : DataFrame) : Except ImportError DataFrame :=
  let df1 := mapCols renameMin df
  if "ticker" ∈ df1.columns.map lowerStr ∧ "qty" ∈ df1.columns.map lowerStr
  then
    let df2 := mapCols lowerStr df1
    let df3 := setCol df2 "ticker"
      (fun r => .str (upperStr (cellStr (getCell r "ticker"))))
    let df4 := setCol df3 "qty" (fun r => fillZeroCell (getCell r "qty"))
    .ok df4
  else .error (.schemaError "Excel must include columns: ticker, qty")

/-- Python `float(x)` on a cell: fails on non-numeric input. -/
def floatOfCell (c : Cell) : Except ImportError ℚ :=
  match c with
  | .num q => .ok q
  | _ => .error .convError

/-- One imported row to a `Position` (`t = str(row["ticker"]).upper()`,
`q = float(row["qty"])`, prices taken when their column exists and the cell
is not `NaN`). -/
def rowToPosition (cols : List String) (r : Row) :
    Except ImportError Position := do
  let q ← floatOfCell (getCell r "qty")
  let ep ←
    if "exec_price" ∈ cols ∧ notna (getCell r "exec_price") then
      (floatOfCell (getCell r "exec_price")).map some
    else .ok none
  let cp ←
    if "current_price" ∈ cols ∧ notna (getCell r "current_price") then
      (floatOfCell (getCell r "current_price")).map some
    else .ok none
  .ok { ticker := upperStr (cellStr (getCell r "ticker")), qty := q,
        exec_price := ep, current_price := cp }

/-- Commit of `db.add_all(rows)` into the ticker-keyed table.  Modelled from
the spec: the `Position` model (`data/models.py`, not under `src/`) makes
`ticker` the table's unique key, and the spec fixes the bulk-load outcome to
one row per ticker, last write winning in commit order. -/
def addAllUnique (rows : List Position) : List Position :=
  rows.foldl
    (fun acc p => (acc.filter (fun x => x.ticker != p.ticker)) ++ [p]) []

/-- The `for _, row in df.iterrows()` loop building the `rows` list; the
first conversion error propagates. -/
def rowsToPositions (cols : List String) (rs : List Row) :
    Except ImportError (List Position) :=
  match rs with
  | [] => .ok []
  | r :: rest => do
    let p ← rowToPosition cols r
    let ps ← rowsToPositions cols rest
    .ok (p :: ps)

/-- `load_df_into_db(db, df)`: delete every existing row, then insert one
`Position` per normalized row (the `db` argument only supplies the rows to
clear). -/
def load_df_into_db (_db : List Position) (df : DataFrame) :
    Except ImportError (List Position) := do
  let rows ← rowsToPositions df.columns df.rows
  .ok (addAllUnique rows)

/-- The ledger ingestion pipeline: parse and normalize the sheet, then
destructively reload the table. -/
def importExcel (db : List Position) (df : DataFrame) :
    Except ImportError (List Position) :=
  (df_from_excel_bytes df).bind (load_df_into_db db)

/-- Does the table hold a row for ticker `t`? -/
def hasTicker (db : List Position) (t : String) : Bool :=
  db.any (fun p => p.ticker == t)

/-- Ledger states reachable from the empty table through the public
operations: buy, sell, and spreadsheet import. -/
inductive Reachable : List Position → Prop where
  | protected empty : Reachable []
  | protected buy {db : List Position} {t : String} {q : ℚ}
      {ep cp : Option ℚ} {r : Position} {db' : List Position} :
      Reachable db → buy_stock db t q ep cp = .ok (r, db') → Reachable db'
  | protected sell {db : List Position} {t : String} {q : ℚ}
      {r : Option Position} {db' : List Position} :
      Reachable db → sell_stock db t q = .ok (r, db') → Reachable db'
  | protected imp {db : List Position} {df : DataFrame}
      {db' : List Position} :
      Reachable db → importExcel db df = .ok db' → Reachable db'

/-- `COL_RENAME` in `api/main.py` (a Python dict; entry order matters when
two aliases hit the same original column). -/
def COL_RENAME : List (String × String) :=
  [("Ticker (RIC)", "ticker"), ("Company Name", "company"),
   ("qunatity", "qty"), ("quantity", "qty"), ("Sector", "sector"),
   ("Execution Price", "exec_price"), ("Current Price", "current_price"),
   ("Daily Change (%)", "daily_change_pct"),
   ("Change Since Traded (%)", "since_traded_pct")]

/-- `NUMERIC_COLS` in `api/main.py`. -/
def NUMERIC_COLS : List String :=
  ["qty", "exec_price", "current_price", "daily_change_pct",
   "since_traded_pct"]

/-- Python dict insertion/overwrite. -/
def assocUpdate (m : List (String × String)) (k v : String) :
    List (String × String) :=
  if m.any (fun kv => kv.1 == k) then
    m.map (fun kv => if kv.1 == k then (kv.1, v) else kv)
  else m ++ [(k, v)]

/-- `lower_map = {c.lower(): c for c in df.columns}` (a later duplicate
lowercase label wins). -/
def lowerMap (cols : List String) : List (String × String) :=
  cols.foldl (fun m c => assocUpdate m (lowerStr c) c) []

/-- `rename_map`: for each alias `(k, v)` whose lowercased key names an
actual column, send that original column label to `v`. -/
def renameMapOf (cols : List String) : List (String × String) :=
  COL_RENAME.foldl
    (fun m kv =>
      match lookupAssoc (lowerMap cols) (lowerStr kv.1) with
      | some orig => assocUpdate m orig kv.2
      | none => m)
    []

/-- Apply a rename map to one column label. -/
def applyRename (m : List (String × String)) (c : String) : String :=
  match lookupAssoc m c with
  | some v => v
  | none => c

/-- `pd.to_numeric(df[c], errors="coerce")` over the listed columns that
exist in the frame. -/
def coerceNumericCols (cs : List String) (df : DataFrame) : DataFrame :=
  match cs with
  | [] => df
  | c :: rest =>
    coerceNumericCols rest
      (if c ∈ df.columns then
        setCol df c (fun r => coerceCell (getCell r c))
      else df)

/-- The per-row effect of `coerceNumericCols` (used to reason about it). -/
def rowCoerce (cs cols : List String) (r : Row) : Row :=
  match cs with
  | [] => r
  | c :: rest =>
    rowCoerce rest cols
      (if c ∈ cols then setCell r c (coerceCell (getCell r c)) else r)

/-- Cell multiplication; `NaN` propagates. -/
def cellMul (a b : Cell) : Cell :=
  match a, b with
  | .num x, .num y => .num (x * y)
  | _, _ => .blank

/-- Cell subtraction; `NaN` propagates. -/
def cellSub (a b : Cell) : Cell :=
  match a, b with
  | .num x, .num y => .num (x - y)
  | _, _ => .blank

/-- Cell division; `NaN` propagates.  A zero divisor is modelled as `NaN`
(Python floats produce an infinity there; no property studied here reads
that value). -/
def cellDiv (a b : Cell) : Cell :=
  match a, b with
  | .num x, .num y => if y = 0 then .blank else .num (x / y)
  | _, _ => .blank

/-- The required-column computation of `_load_excel_to_df`:
`[c for c in required if c not in df.columns]`. -/
def requiredMissing (cols : List String) : List String :=
  ["ticker", "qty", "exec_price", "current_price"].filter
    (fun c => c ∉ cols)

/-- `_load_excel_to_df` in `api/main.py`: case-insensitive alias rename,
required-column check, ticker strip+upper, numeric coercion, drop of rows
with `NaN` ticker or qty, and the two derived columns. -/
def loadExcelToDf (df : DataFrame) : Except ImportError DataFrame :=
  let df1 := mapCols (applyRename (renameMapOf df.columns)) df
  let missing := requiredMissing df1.columns
  if missing = [] then
    let df2 := setCol df1 "ticker"
      (fun r => .str (upperStr (stripStr (cellStr (getCell r "ticker")))))
    let df3 := coerceNumericCols NUMERIC_COLS df2
    let df4 : DataFrame :=
      { columns := df3.columns,
        rows := df3.rows.filter
          (fun r => notna (getCell r "ticker") && notna (getCell r "qty")) }
    let df5 := setCol df4 "market_value"
      (fun r => cellMul (getCell r "qty") (getCell r "current_price"))
    let df6 := setCol df5 "pnl_pct" (fun r =>
      cellMul
        (cellDiv (cellSub (getCell r "current_price") (getCell r "exec_price"))
          (getCell r "exec_price"))
        (.num 100))
    .ok df6
  else
    .error (.schemaError
      ("Missing required columns: " ++ String.intercalate ", " missing))

/-- The HTTP response of `POST /portfolio/upload`. -/
inductive UploadResponse where
  | ok (rows_loaded : ℕ)
  | badRequest (detail : String)
deriving DecidableEq

/-- The text of a raised ingestion error. -/
def errDetail (e : ImportError) : String :=
  match e with
  | .schemaError m => m
  | .convError => "could not convert value to float"

/-- `upload_portfolio`: parse the saved upload into a DataFrame and store
it in the process-wide `PORTFOLIO_DF`; any raised error is converted to an
HTTP 400 with a detail message, leaving the stored table unchanged.  The
outcome of `pd.read_excel` on the uploaded bytes is the `parsed` argument
(a parse failure arrives as `.error`). -/
def upload_portfolio (prior : Option DataFrame)
    (parsed : Except String DataFrame) :
    UploadResponse × Option DataFrame :=
  match parsed with
  | .error m => (.badRequest ("Upload/parse error: " ++ m), prior)
  | .ok df =>
    match loadExcelToDf df with
    | .ok out => (.ok out.rows.length, some out)
    | .error e => (.badRequest ("Upload/parse error: " ++ errDetail e), prior)

/-- A parsed `href` as seen through `urlparse`, `parse_qs` and `unquote`:
network location, path, and the first unquoted `uddg` query value when the
parameter is present with a non-empty list.  The URL-parsing library is
modelled by supplying its output alongside each anchor. -/
structure ParsedUrl where
  netloc : String
  path : String
  uddg : Option String
deriving DecidableEq

/-- One `div.result` node of the search results page: the `a.result__a`
anchor (href, title text, parsed href) when present, and the snippet text
when a snippet node is present. -/
structure RawResult where
  anchor : Option (String × String × ParsedUrl)
  snippet : Option String
deriving DecidableEq

/-- The network interaction of `requests.post` plus `raise_for_status`:
either some raised exception or non-2xx status, or a fetched page whose
`div.result` nodes are listed. -/
inductive NetOutcome where
  | failure
  | success (results : List RawResult)
deriving DecidableEq

/-- One entry of the returned list: `{"title", "url", "snippet"}`. -/
structure SearchResult where
  title : String
  url : String
  snippet : String
deriving DecidableEq

/-- Redirect resolution: a `duckduckgo.com` link with path `/l/` and a
`uddg` parameter is unwrapped to its unquoted target. -/
def resolveUrl (href : String) (parsed : ParsedUrl) : String :=
  if parsed.netloc.endsWith "duckduckgo.com" ∧ parsed.path = "/l/" then
    match parsed.uddg with
    | some u => u
    | none => href
  else href

/-- The extraction loop over `soup.select("div.result")`: skip nodes
without an anchor, append an entry otherwise, and break as soon as
`max_results` entries are collected (the caller passes `max_results ≥ 1`). -/
def collectResults (maxResults : Int) (l : List RawResult) :
    List SearchResult :=
  match l with
  | [] => []
  | r :: rest =>
    match r.anchor with
    | none => collectResults maxResults rest
    | some (href, title, parsed) =>
      let item : SearchResult :=
        ⟨title, resolveUrl href parsed,
          match r.snippet with
          | some s => s
          | none => ""⟩
      if 1 < maxResults then item :: collectResults (maxResults - 1) rest
      else [item]

/-- `web_search(query, num_results)`: the blank-query check runs before the
network call (the result ignores `net` in that case); any network failure
yields the empty list; otherwise the loop collects at most
`max(1, min(10, num_results))` entries.  The function is total: no
exception escapes to the caller. -/
def web_search_tool (query : String) (num_results : Int)
    (net : NetOutcome) : List SearchResult :=
  if stripStr query = "" then []
  else
    match net with
    | .failure => []
    | .success divs => collectResults (max 1 (min 10 num_results)) divs

theorem charToUpper_idem (c : Char) : c.toUpper.toUpper = c.toUpper := by
  unfold Char.toUpper
  by_cases h : c.toNat ≥ 97 ∧ c.toNat ≤ 122
  · rw [if_pos h]
    have hv : (c.toNat - 32).isValidChar := Or.inl (by omega)
    have ht : (Char.ofNat (c.toNat - 32)).toNat = c.toNat - 32 := by
      rw [Char.ofNat, dif_pos hv]
      rfl
    rw [ht, if_neg (by omega)]
  · rw [if_neg h, if_neg h]

/-- Uppercasing is idempotent; this justifies modelling the double
`upper()` in `insert_position` → `get_position` with a single `upperStr`. -/
theorem upperStr_idem (s : String) : upperStr (upperStr s) = upperStr s := by
  show String.mk ((s.data.map Char.toUpper).map Char.toUpper) =
    String.mk (s.data.map Char.toUpper)
  rw [List.map_map]
  exact congrArg String.mk (List.map_congr_left (fun c _ => charToUpper_idem c))

theorem find?_ticker_cons (x : Position) (rest : List Position) (t : String) :
    (x :: rest).find? (fun y => y.ticker == t) =
      if x.ticker == t then some x
      else rest.find? (fun y => y.ticker == t) := by
  by_cases h : x.ticker == t
  · rw [if_pos h]
    exact List.find?_cons_of_pos _ h
  · rw [if_neg h]
    exact List.find?_cons_of_neg _ h

theorem mem_of_mem_removeFirst {db : List Position} {t : String} {x : Position}
    (h : x ∈ removeFirst db t) : x ∈ db := by
  induction db with
  | nil => simp [removeFirst] at h
  | cons p rest ih =>
    rw [removeFirst] at h
    split at h
    · exact List.mem_cons_of_mem _ h
    · rcases List.mem_cons.mp h with h | h
      · exact h ▸ List.mem_cons_self _ _
      · exact List.mem_cons_of_mem _ (ih h)

theorem mem_of_mem_replaceFirst {db : List Position} {t : String}
    {q x : Position} (h : x ∈ replaceFirst db t q) : x ∈ db ∨ x = q := by
  induction db with
  | nil => simp [replaceFirst] at h
  | cons p rest ih =>
    rw [replaceFirst] at h
    split at h
    · rcases List.mem_cons.mp h with h | h
      · exact Or.inr h
      · exact Or.inl (List.mem_cons_of_mem _ h)
    · rcases List.mem_cons.mp h with h | h
      · exact Or.inl (h ▸ List.mem_cons_self _ _)
      · rcases ih h with h | h
        · exact Or.inl (List.mem_cons_of_mem _ h)
        · exact Or.inr h

theorem find?_replaceFirst {db : List Position} {t : String} {p q : Position}
    (hf : db.find? (fun x => x.ticker == t) = some p) (hq : q.ticker = t) :
    (replaceFirst db t q).find? (fun x => x.ticker == t) = some q := by
  induction db with
  | nil => simp at hf
  | cons x rest ih =>
    rw [replaceFirst]
    by_cases hx : x.ticker == t
    · rw [if_pos hx, find?_ticker_cons, if_pos (by simp [hq])]
    · rw [find?_ticker_cons, if_neg hx] at hf
      rw [if_neg hx, find?_ticker_cons, if_neg hx]
      exact ih hf

theorem find?_removeFirst_of_nodup {db : List Position} {t : String}
    {p : Position} (hnd : TickersNodup db)
    (hf : db.find? (fun x => x.ticker == t) = some p) :
    (removeFirst db t).find? (fun x => x.ticker == t) = none := by
  induction db with
  | nil => simp at hf
  | cons x rest ih =>
    rw [TickersNodup, List.map_cons, List.nodup_cons] at hnd
    rw [removeFirst]
    by_cases hx : x.ticker == t
    · rw [if_pos hx]
      rw [List.find?_eq_none]
      intro y hy hyt
      have hx' : x.ticker = t := by simpa using hx
      have hy' : y.ticker = t := by simpa using hyt
      exact hnd.1 (List.mem_map.mpr ⟨y, hy, hy'.trans hx'.symm⟩)
    · rw [find?_ticker_cons, if_neg hx] at hf
      rw [if_neg hx, find?_ticker_cons, if_neg hx]
      exact ih hnd.2 hf

theorem find?_append_of_none {db : List Position} {t : String} {q : Position}
    (hf : db.find? (fun x => x.ticker == t) = none) (hq : q.ticker = t) :
    (db ++ [q]).find? (fun x => x.ticker == t) = some q := by
  induction db with
  | nil => rw [List.nil_append, find?_ticker_cons, if_pos (by simp [hq])]
  | cons x rest ih =>
    rw [find?_ticker_cons] at hf
    by_cases hx : x.ticker == t
    · rw [if_pos hx] at hf
      exact absurd hf (by simp)
    · rw [if_neg hx] at hf
      rw [List.cons_append, find?_ticker_cons, if_neg hx]
      exact ih hf

theorem buy_stock_of_absent (db : List Position) (t : String) (q : ℚ)
    (ep cp : Option ℚ) (hq : 0 < q) (hn : get_position db t = none) :
    buy_stock db t q ep cp =
      .ok (⟨upperStr t, q, orElseO ep cp, orElseO cp ep⟩,
        db ++ [⟨upperStr t, q, orElseO ep cp, orElseO cp ep⟩]) := by
  simp only [buy_stock, if_neg (not_le.mpr hq), insert_position, hn]
  rw [max_eq_left hq.le]

theorem buy_stock_of_present (db : List Position) (t : String) (q : ℚ)
    (ep cp : Option ℚ) (p : Position) (hq : 0 < q)
    (hp : get_position db t = some p) (hpos : 0 < p.qty + q) :
    buy_stock db t q ep cp =
      .ok (⟨p.ticker, p.qty + q, orElseO ep p.exec_price,
          orElseO cp p.current_price⟩,
        replaceFirst db (upperStr t)
          ⟨p.ticker, p.qty + q, orElseO ep p.exec_price,
            orElseO cp p.current_price⟩) := by
  simp only [buy_stock, if_neg (not_le.mpr hq), insert_position, hp]
  rw [if_neg (not_le.mpr hpos)]

theorem sell_stock_partial (db : List Position) (t : String) (s : ℚ)
    (p : Position) (hp : get_position db t = some p) (hs : 0 < s)
    (hlt : s < p.qty) :
    sell_stock db t s =
      .ok (some ⟨p.ticker, p.qty - s, p.exec_price, p.current_price⟩,
        replaceFirst db (upperStr t)
          ⟨p.ticker, p.qty - s, p.exec_price, p.current_price⟩) := by
  simp only [sell_stock, if_neg (not_le.mpr hs), hp,
    if_neg (not_lt.mpr hlt.le), insert_position, orElseO]
  rw [if_neg (not_le.mpr (by linarith)), sub_eq_add_neg]

theorem sell_stock_close (db : List Position) (t : String) (p : Position)
    (hp : get_position db t = some p) (hs : 0 < p.qty) :
    sell_stock db t p.qty = .ok (none, removeFirst db (upperStr t)) := by
  simp only [sell_stock, if_neg (not_le.mpr hs), hp, if_neg (lt_irrefl p.qty),
    insert_position, orElseO]
  rw [if_pos (by linarith)]

theorem ticker_eq_of_get_position {db : List Position} {t : String}
    {p : Position} (hp : get_position db t = some p) :
    p.ticker = upperStr t := by
  have := List.find?_some hp
  simpa using this

/-- Claim C2 (amended): for `qty > 0`, `buy` on an absent ticker creates a
position with exactly that quantity, `exec_price`/`current_price` defaulted
from each other when one is missing; on an existing position whose quantity
plus `qty` is positive, `buy` adds `qty` and overwrites the prices only when
supplied.  (The positivity proviso on the result is forced by the
counterexample: an imported row can hold a non-positive quantity, and there
`buy` fails its internal assertion instead of returning the summed row.) -/
theorem claim_C2_amended_buy_semantics (db : List Position) (t : String)
    (q : ℚ) (ep cp : Option ℚ) (hq : 0 < q) :
    (get_position db t = none →
      ∃ pos db', buy_stock db t q ep cp = .ok (pos, db') ∧
        pos = ⟨upperStr t, q, orElseO ep cp, orElseO cp ep⟩ ∧
        db' = db ++ [pos] ∧
        get_position db' t = some pos) ∧
    (∀ p, get_position db t = some p → 0 < p.qty + q →
      ∃ pos db', buy_stock db t q ep cp = .ok (pos, db') ∧
        pos = ⟨p.ticker, p.qty + q, orElseO ep p.exec_price,
          orElseO cp p.current_price⟩ ∧
        get_position db' t = some pos) := by
  constructor
  · intro hn
    refine ⟨_, _, buy_stock_of_absent db t q ep cp hq hn, rfl, rfl, ?_⟩
    exact find?_append_of_none hn rfl
  · intro p hp hpos
    refine ⟨_, _, buy_stock_of_present db t q ep cp p hq hp hpos, rfl, ?_⟩
    have htk := ticker_eq_of_get_position hp
    exact @find?_replaceFirst db (upperStr t) p
      ⟨p.ticker, p.qty + q, orElseO ep p.exec_price, orElseO cp p.current_price⟩
      hp htk

/-- Claim C3: selling `0 < s < q` from a held position leaves quantity
`q - s` and returns the updated position; selling exactly `q` deletes the
position and returns absent, after which `get` returns absent. -/
theorem claim_C3_sell_semantics (db : List Position) (t : String) (s : ℚ)
    (p : Position) (hnd : TickersNodup db)
    (hp : get_position db t = some p) (hs : 0 < s) (hle : s ≤ p.qty) :
    (s < p.qty →
      ∃ db', sell_stock db t s =
          .ok (some ⟨p.ticker, p.qty - s, p.exec_price, p.current_price⟩,
            db') ∧
        get_position db' t =
          some ⟨p.ticker, p.qty - s, p.exec_price, p.current_price⟩) ∧
    (s = p.qty →
      ∃ db', sell_stock db t s = .ok (none, db') ∧
        get_position db' t = none) := by
  constructor
  · intro hlt
    refine ⟨_, sell_stock_partial db t s p hp hs hlt, ?_⟩
    have htk := ticker_eq_of_get_position hp
    exact @find?_replaceFirst db (upperStr t) p
      ⟨p.ticker, p.qty - s, p.exec_price, p.current_price⟩
      hp htk
  · intro heq
    subst heq
    exact ⟨_, sell_stock_close db t p hp hs,
      find?_removeFirst_of_nodup hnd hp⟩

/-- Claim C4: non-positive quantities fail with `InvalidQuantity`; selling
more than held, or from an absent ticker, fails with `InsufficientShares`;
every such failure leaves the ledger unchanged. -/
theorem claim_C4_error_handling (db : List Position) (t : String) (q : ℚ)
    (ep cp : Option ℚ) :
    (q ≤ 0 →
      buy_stock db t q ep cp = .error .invalidQuantity ∧
      buyState db t q ep cp = db ∧
      sell_stock db t q = .error .invalidQuantity ∧
      sellState db t q = db) ∧
    (0 < q → get_position db t = none →
      sell_stock db t q = .error .insufficientShares ∧
      sellState db t q = db) ∧
    (0 < q → ∀ p, get_position db t = some p → p.qty < q →
      sell_stock db t q = .error .insufficientShares ∧
      sellState db t q = db) := by
  refine ⟨fun hq => ?_, fun hq hn => ?_, fun hq p hp hlt => ?_⟩
  · simp [buy_stock, buyState, sell_stock, sellState, hq]
  · simp [sell_stock, sellState, hn, not_le.mpr hq]
  · simp [sell_stock, sellState, hp, hlt, not_le.mpr hq]

/-- Claim C10: a partial sell changes only `qty`; ticker and both price
fields of the stored position are exactly those held before the sell. -/
theorem claim_C10_sell_frame (db : List Position) (t : String) (s : ℚ)
    (p : Position) (hp : get_position db t = some p) (hs : 0 < s)
    (hlt : s < p.qty) :
    ∃ db', sell_stock db t s =
        .ok (some ⟨p.ticker, p.qty - s, p.exec_price, p.current_price⟩,
          db') ∧
      get_position db' t =
        some ⟨p.ticker, p.qty - s, p.exec_price, p.current_price⟩ := by
  refine ⟨_, sell_stock_partial db t s p hp hs hlt, ?_⟩
  have htk := ticker_eq_of_get_position hp
  exact @find?_replaceFirst db (upperStr t) p
    ⟨p.ticker, p.qty - s, p.exec_price, p.current_price⟩
    hp htk

/-- Claim C1 (amended): `buy` and `sell` preserve the invariant that every
persisted row has `qty > 0` (a row whose quantity would drop to `0` or below
is deleted).  The spreadsheet import path does not preserve it: it stores
whatever quantity the normalized sheet contains, including zero (from a
non-numeric cell) or a negative value — see the counterexample. -/
theorem claim_C1_amended_mutations_preserve_qty_pos (db : List Position)
    (hinv : PosInv db) :
    (∀ t q ep cp r db', buy_stock db t q ep cp = .ok (r, db') →
      PosInv db') ∧
    (∀ t q r db', sell_stock db t q = .ok (r, db') → PosInv db') := by
  constructor
  · intro t q ep cp r db' hbuy
    by_cases hq : q ≤ 0
    · simp only [buy_stock, if_pos hq] at hbuy
      exact Except.noConfusion hbuy
    · have hq' := not_le.mp hq
      cases hget : get_position db t with
      | none =>
        rw [buy_stock_of_absent db t q ep cp hq' hget] at hbuy
        simp only [Except.ok.injEq, Prod.mk.injEq] at hbuy
        obtain ⟨hr, hdb⟩ := hbuy
        subst hdb
        intro x hx
        rcases List.mem_append.mp hx with hx | hx
        · exact hinv x hx
        · simp only [List.mem_singleton] at hx
          rw [hx]
          exact hq'
      | some p =>
        by_cases hpos : p.qty + q ≤ 0
        · simp only [buy_stock, if_neg hq, insert_position, hget,
            if_pos hpos] at hbuy
          exact Except.noConfusion hbuy
        · have hpos' := not_le.mp hpos
          rw [buy_stock_of_present db t q ep cp p hq' hget hpos'] at hbuy
          simp only [Except.ok.injEq, Prod.mk.injEq] at hbuy
          obtain ⟨hr, hdb⟩ := hbuy
          subst hdb
          intro x hx
          rcases mem_of_mem_replaceFirst hx with hx | hx
          · exact hinv x hx
          · rw [hx]
            exact hpos'
  · intro t q r db' hsell
    by_cases hq : q ≤ 0
    · simp only [sell_stock, if_pos hq] at hsell
      exact Except.noConfusion hsell
    · cases hget : get_position db t with
      | none =>
        simp only [sell_stock, if_neg hq, hget] at hsell
        exact Except.noConfusion hsell
      | some p =>
        by_cases hlt : p.qty < q
        · simp only [sell_stock, if_neg hq, hget, if_pos hlt] at hsell
          exact Except.noConfusion hsell
        · simp only [sell_stock, if_neg hq, hget, if_neg hlt,
            insert_position, orElseO] at hsell
          by_cases hz : p.qty + -q ≤ 0
          · rw [if_pos hz] at hsell
            simp only [Except.ok.injEq, Prod.mk.injEq] at hsell
            obtain ⟨hr, hdb⟩ := hsell
            subst hdb
            intro x hx
            exact hinv x (mem_of_mem_removeFirst hx)
          · rw [if_neg hz] at hsell
            simp only [Except.ok.injEq, Prod.mk.injEq] at hsell
            obtain ⟨hr, hdb⟩ := hsell
            subst hdb
            intro x hx
            rcases mem_of_mem_replaceFirst hx with hx | hx
            · exact hinv x hx
            · rw [hx]
              exact not_le.mp hz

/-- Claim C9 (amended): on any ledger state in which every row has a
positive quantity (which `buy`/`sell` preserve, but imports with
non-positive quantities violate), the `buy_stock` tool with `qty > 0`
returns a non-null position record: the mutator's delete-and-return-absent
branch is not taken, so the `assert` succeeds. -/
theorem claim_C9_amended_assert_unreachable (db : List Position) (t : String)
    (q : ℚ) (ep cp : Option ℚ) (hinv : PosInv db) (hq : 0 < q) :
    ∃ pos db',
      buy_stock_tool db t q ep cp = .ok (position_to_dict (some pos), db') ∧
      (position_to_dict (some pos)).ticker ≠ none := by
  cases hget : get_position db t with
  | none =>
    refine ⟨⟨upperStr t, q, orElseO ep cp, orElseO cp ep⟩,
      db ++ [⟨upperStr t, q, orElseO ep cp, orElseO cp ep⟩], ?_, ?_⟩
    · simp only [buy_stock_tool, buy_stock_of_absent db t q ep cp hq hget]
    · simp [position_to_dict]
  | some p =>
    have hmem : p ∈ db := List.mem_of_find?_eq_some hget
    have hpos : 0 < p.qty + q := add_pos (hinv p hmem) hq
    refine ⟨⟨p.ticker, p.qty + q, orElseO ep p.exec_price,
      orElseO cp p.current_price⟩,
      replaceFirst db (upperStr t)
        ⟨p.ticker, p.qty + q, orElseO ep p.exec_price,
          orElseO cp p.current_price⟩, ?_, ?_⟩
    · simp only [buy_stock_tool,
        buy_stock_of_present db t q ep cp p hq hget hpos]
    · simp [position_to_dict]

/-- Witness for C2: a concrete first buy on an empty ledger. -/
theorem claim_C2_witness :
    ∃ pos db', buy_stock [] "aapl" 5 (some 10) none = .ok (pos, db') ∧
      pos = ⟨upperStr "aapl", 5, orElseO (some 10) none,
        orElseO none (some 10)⟩ ∧
      db' = [] ++ [pos] ∧
      get_position db' "aapl" = some pos :=
  (claim_C2_amended_buy_semantics [] "aapl" 5 (some 10) none
    (by norm_num)).1 (by decide)

/-- Witness for C3: a partial and a closing sell of a held position. -/
theorem claim_C3_witness :
    (∃ db', sell_stock [⟨"AAPL", 5, some 1, some 2⟩] "AAPL" 2 =
        .ok (some ⟨"AAPL", 5 - 2, some 1, some 2⟩, db') ∧
      get_position db' "AAPL" = some ⟨"AAPL", 5 - 2, some 1, some 2⟩) ∧
    (∃ db', sell_stock [⟨"AAPL", 5, some 1, some 2⟩] "AAPL" 5 =
        .ok (none, db') ∧
      get_position db' "AAPL" = none) := by
  constructor
  · exact (claim_C3_sell_semantics [⟨"AAPL", 5, some 1, some 2⟩] "AAPL" 2
      ⟨"AAPL", 5, some 1, some 2⟩ (by simp [TickersNodup]) (by decide)
      (by norm_num) (by norm_num)).1 (by norm_num)
  · exact (claim_C3_sell_semantics [⟨"AAPL", 5, some 1, some 2⟩] "AAPL" 5
      ⟨"AAPL", 5, some 1, some 2⟩ (by simp [TickersNodup]) (by decide)
      (by norm_num) (by norm_num)).2 rfl

/-- Witness for C4: concrete failing buys and sells. -/
theorem claim_C4_witness :
    (buy_stock [] "AAPL" (-1) none none = .error .invalidQuantity ∧
      buyState [] "AAPL" (-1) none none = [] ∧
      sell_stock [] "AAPL" (-1) = .error .invalidQuantity ∧
      sellState [] "AAPL" (-1) = []) ∧
    (sell_stock [] "AAPL" 1 = .error .insufficientShares ∧
      sellState [] "AAPL" 1 = []) ∧
    (sell_stock [⟨"AAPL", 2, none, none⟩] "AAPL" 5 =
        .error .insufficientShares ∧
      sellState [⟨"AAPL", 2, none, none⟩] "AAPL" 5 =
        [⟨"AAPL", 2, none, none⟩]) :=
  ⟨(claim_C4_error_handling [] "AAPL" (-1) none none).1 (by norm_num),
   (claim_C4_error_handling [] "AAPL" 1 none none).2.1 (by norm_num)
     (by decide),
   (claim_C4_error_handling [⟨"AAPL", 2, none, none⟩] "AAPL" 5 none none).2.2
     (by norm_num) ⟨"AAPL", 2, none, none⟩ (by decide) (by norm_num)⟩

/-- Witness for C10: a concrete partial sell keeping both prices. -/
theorem claim_C10_witness :
    ∃ db', sell_stock [⟨"MSFT", 10, some 3, none⟩] "msft" 4 =
        .ok (some ⟨"MSFT", 10 - 4, some 3, none⟩, db') ∧
      get_position db' "msft" = some ⟨"MSFT", 10 - 4, some 3, none⟩ :=
  claim_C10_sell_frame [⟨"MSFT", 10, some 3, none⟩] "msft" 4
    ⟨"MSFT", 10, some 3, none⟩ (by decide) (by norm_num) (by norm_num)

/-- Witness for C1: the invariant survives a concrete buy on a positive
ledger. -/
theorem claim_C1_witness : PosInv [⟨"AAPL", 1 + 1, none, none⟩] :=
  (claim_C1_amended_mutations_preserve_qty_pos [⟨"AAPL", 1, none, none⟩]
      (by
        intro p hp
        rw [List.mem_singleton] at hp
        rw [hp]
        norm_num)).1
    "AAPL" 1 none none ⟨"AAPL", 1 + 1, none, none⟩
    [⟨"AAPL", 1 + 1, none, none⟩]
    (by
      have hu : upperStr "AAPL" = "AAPL" := by decide
      norm_num [buy_stock, insert_position, get_position, orElseO,
        replaceFirst, hu])

/-- Witness for C9: a concrete tool buy on the empty (hence positive)
ledger. -/
theorem claim_C9_witness :
    ∃ pos db', buy_stock_tool [] "NVDA" 3 none (some 100) =
        .ok (position_to_dict (some pos), db') ∧
      (position_to_dict (some pos)).ticker ≠ none :=
  claim_C9_amended_assert_unreachable [] "NVDA" 3 none (some 100)
    (by intro p hp; simp at hp) (by norm_num)

theorem length_collectResults_le (l : List RawResult) (m : Int)
    (hm : 1 ≤ m) : (collectResults m l).length ≤ m.toNat := by
  induction l generalizing m with
  | nil => simp [collectResults]
  | cons r rest ih =>
    cases han : r.anchor with
    | none =>
      simp only [collectResults, han]
      exact ih m hm
    | some a =>
      obtain ⟨href, title, parsed⟩ := a
      simp only [collectResults, han]
      by_cases h1 : 1 < m
      · rw [if_pos h1]
        simp only [List.length_cons]
        have := ih (m - 1) (by omega)
        omega
      · rw [if_neg h1]
        simp only [List.length_cons, List.length_nil]
        omega

/-- Claim C8: `web_search` returns the empty list on a blank query without
consulting the network, returns the empty list on any network failure, and
never returns more than `min(10, max(1, num_results))` entries; the model
is a total function, so no exception reaches the caller. -/
theorem claim_C8_web_search_safe (query : String) (n : Int)
    (net : NetOutcome) :
    (stripStr query = "" → web_search_tool query n net = []) ∧
    web_search_tool query n .failure = [] ∧
    (web_search_tool query n net).length ≤ (min 10 (max 1 n)).toNat := by
  refine ⟨fun hq => ?_, ?_, ?_⟩
  · simp [web_search_tool, hq]
  · by_cases hq : stripStr query = "" <;> simp [web_search_tool, hq]
  · by_cases hq : stripStr query = ""
    · simp [web_search_tool, hq]
    · cases net with
      | failure => simp [web_search_tool, hq]
      | success divs =>
        have hb := length_collectResults_le divs (max 1 (min 10 n))
          (le_max_left _ _)
        have heq : (max 1 (min 10 n)).toNat = (min 10 (max 1 n)).toNat := by
          omega
        simp only [web_search_tool, if_neg hq]
        omega

/-- Witness for C8: a blank query, a failed fetch, and a page with one
result node. -/
theorem claim_C8_witness :
    web_search_tool "  " 5
      (.success [⟨some ("http://x", "t", ⟨"x.example", "/", none⟩),
        none⟩]) = [] ∧
    web_search_tool "hi" 5 .failure = [] ∧
    (web_search_tool "hi" 3
        (.success [⟨some ("http://x", "t", ⟨"x.example", "/", none⟩),
          none⟩])).length ≤ (min 10 (max 1 (3 : Int))).toNat :=
  ⟨(claim_C8_web_search_safe "  " 5 _).1 (by decide),
   (claim_C8_web_search_safe "hi" 5 .failure).2.1,
   (claim_C8_web_search_safe "hi" 3 _).2.2⟩

/-- Counterexample for C1 as stated: importing a sheet whose qty cell is
non-numeric stores a row with `qty = 0` (`to_numeric` coercion followed by
`fillna(0.0)`, and `load_df_into_db` performs no positivity check), so a
completed public import leaves a persisted row violating `qty > 0`. -/
theorem claim_C1_counterexample :
    importExcel []
        ⟨["ticker", "qty"],
          [[("ticker", .str "AAPL"), ("qty", .str "abc")]]⟩ =
      .ok [⟨"AAPL", 0, none, none⟩] ∧
    ¬ PosInv [⟨"AAPL", 0, none, none⟩] := by
  constructor
  · decide
  · intro h
    have h0 := h ⟨"AAPL", 0, none, none⟩ (List.mem_singleton.mpr rfl)
    norm_num at h0

/-- Counterexample for C2 as stated: a persisted position can carry a
negative quantity (it arises from a completed import), and there a buy of
`3` does not produce the summed position: the mutator deletes the row and
`buy_stock` fails its assertion. -/
theorem claim_C2_counterexample :
    importExcel []
        ⟨["ticker", "qty"],
          [[("ticker", .str "AAPL"), ("qty", .num (-5))]]⟩ =
      .ok [⟨"AAPL", -5, none, none⟩] ∧
    get_position [⟨"AAPL", -5, none, none⟩] "AAPL" =
      some ⟨"AAPL", -5, none, none⟩ ∧
    buy_stock [⟨"AAPL", -5, none, none⟩] "AAPL" 3 none none =
      .error .assertionFailed := by
  refine ⟨by decide, by decide, ?_⟩
  have hu : upperStr "AAPL" = "AAPL" := by decide
  norm_num [buy_stock, insert_position, get_position, orElseO, removeFirst,
    hu]

/-- Counterexample for C9 as stated: a state with a negative-quantity row is
reachable through the public import operation, and from it the `buy_stock`
tool with `qty = 3 > 0` raises the assertion failure instead of returning a
position record. -/
theorem claim_C9_counterexample :
    Reachable [⟨"AAPL", -5, none, none⟩] ∧
    buy_stock_tool [⟨"AAPL", -5, none, none⟩] "AAPL" 3 none none =
      .error .assertionFailed := by
  constructor
  · exact @Reachable.imp []
      ⟨["ticker", "qty"], [[("ticker", .str "AAPL"), ("qty", .num (-5))]]⟩
      [⟨"AAPL", -5, none, none⟩] Reachable.empty (by decide)
  · have hu : upperStr "AAPL" = "AAPL" := by decide
    norm_num [buy_stock_tool, buy_stock, insert_position, get_position,
      orElseO, removeFirst, hu]

/-- Counterexample for C5 as stated: on the ledger ingestion path the
ticker is uppercased but not trimmed, and a non-numeric qty becomes the
number `0.0` — not an absent value — with the row kept. -/
theorem claim_C5_counterexample :
    df_from_excel_bytes
        ⟨["ticker", "qty"],
          [[("ticker", .str " aapl "), ("qty", .str "abc")]]⟩ =
      .ok ⟨["ticker", "qty"],
        [[("ticker", .str " AAPL "), ("qty", .num 0)]]⟩ ∧
    stripStr " AAPL " ≠ " AAPL " ∧
    Cell.num 0 ≠ Cell.blank :=
  ⟨by decide, by decide, by decide⟩

theorem getCell_setCell_self (r : Row) (c : String) (v : Cell) :
    getCell (setCell r c v) c = v := by
  induction r with
  | nil => simp [setCell, getCell]
  | cons kv rest ih =>
    by_cases hk : kv.1 == c
    · simp [setCell, getCell, hk]
    · simp [setCell, getCell, hk, ih]

theorem getCell_setCell_other (r : Row) (c c' : String) (v : Cell)
    (h : c' ≠ c) : getCell (setCell r c v) c' = getCell r c' := by
  have hcc : (c == c') = false := by
    simpa using fun he => h he.symm
  induction r with
  | nil => simp [setCell, getCell, hcc]
  | cons kv rest ih =>
    by_cases hk : kv.1 == c
    · have hk1 : kv.1 = c := by simpa using hk
      have hk' : (kv.1 == c') = false := by
        rw [hk1]
        exact hcc
      simp [setCell, getCell, hk, hk']
    · simp [setCell, getCell, hk, ih]

theorem coerceCell_shape (x : Cell) :
    (∃ q, coerceCell x = .num q) ∨ coerceCell x = .blank := by
  cases x with
  | blank => exact Or.inr rfl
  | str s => exact Or.inr rfl
  | num q => exact Or.inl ⟨q, rfl⟩

theorem fillZeroCell_num (x : Cell) : ∃ q, fillZeroCell x = .num q := by
  cases x with
  | blank => exact ⟨0, rfl⟩
  | str s => exact ⟨0, rfl⟩
  | num q => exact ⟨q, rfl⟩

theorem getCell_rowCoerce_not_mem (cs cols : List String) (r : Row)
    (c : String) (h : c ∉ cs) :
    getCell (rowCoerce cs cols r) c = getCell r c := by
  induction cs generalizing r with
  | nil => rfl
  | cons c0 rest ih =>
    rw [rowCoerce]
    have hc0 : c ≠ c0 := fun he => h (he ▸ List.mem_cons_self _ _)
    have hrest : c ∉ rest := fun hm => h (List.mem_cons_of_mem _ hm)
    rw [ih _ hrest]
    split
    · exact getCell_setCell_other _ _ _ _ hc0
    · rfl

theorem rowCoerce_mem_shape (cs cols : List String) (c : String)
    (hcol : c ∈ cols) :
    ∀ r, c ∈ cs →
      ((∃ q, getCell (rowCoerce cs cols r) c = .num q) ∨
        getCell (rowCoerce cs cols r) c = .blank) := by
  induction cs with
  | nil =>
    intro r hc
    cases hc
  | cons c0 rest ih =>
    intro r hc
    rw [rowCoerce]
    by_cases hr : c ∈ rest
    · exact ih _ hr
    · have hcc0 : c = c0 := by
        rcases List.mem_cons.mp hc with h | h
        · exact h
        · exact absurd h hr
      subst hcc0
      rw [if_pos hcol, getCell_rowCoerce_not_mem rest cols _ c hr,
        getCell_setCell_self]
      exact coerceCell_shape _

theorem columns_coerceNumericCols (cs : List String) (df : DataFrame) :
    (coerceNumericCols cs df).columns = df.columns := by
  induction cs generalizing df with
  | nil => rfl
  | cons c rest ih =>
    rw [coerceNumericCols]
    by_cases hc : c ∈ df.columns
    · rw [if_pos hc, ih]
      simp [setCol, hc]
    · rw [if_neg hc, ih]

theorem rows_coerceNumericCols (cs : List String) (df : DataFrame) :
    (coerceNumericCols cs df).rows =
      df.rows.map (rowCoerce cs df.columns) := by
  induction cs generalizing df with
  | nil =>
    simp only [coerceNumericCols]
    have h1 : df.rows.map (rowCoerce [] df.columns) = df.rows.map id :=
      List.map_congr_left (fun r _ => rfl)
    rw [h1, List.map_id]
  | cons c rest ih =>
    rw [coerceNumericCols]
    by_cases hc : c ∈ df.columns
    · rw [if_pos hc, ih]
      have hcols :
          (setCol df c (fun r => coerceCell (getCell r c))).columns =
            df.columns := by
        simp [setCol, hc]
      rw [hcols]
      show (df.rows.map
          (fun r => setCell r c (coerceCell (getCell r c)))).map
            (rowCoerce rest df.columns) =
        df.rows.map (rowCoerce (c :: rest) df.columns)
      rw [List.map_map]
      refine List.map_congr_left (fun r _ => ?_)
      show rowCoerce rest df.columns
          (setCell r c (coerceCell (getCell r c))) =
        rowCoerce (c :: rest) df.columns r
      rw [rowCoerce, if_pos hc]
    · rw [if_neg hc, ih]
      refine List.map_congr_left (fun r _ => ?_)
      show rowCoerce rest df.columns r = rowCoerce (c :: rest) df.columns r
      rw [rowCoerce, if_neg hc]

theorem requiredMissing_eq_nil_iff (cols : List String) :
    requiredMissing cols = [] ↔
      ∀ c ∈ (["ticker", "qty", "exec_price", "current_price"] :
        List String), c ∈ cols := by
  rw [requiredMissing, List.filter_eq_nil_iff]
  constructor
  · intro h c hc
    simpa using h c hc
  · intro h c hc
    simpa using h c hc

theorem rowToPosition_ticker {cols : List String} {r : Row} {p : Position}
    (h : rowToPosition cols r = .ok p) :
    p.ticker = upperStr (cellStr (getCell r "ticker")) := by
  simp only [rowToPosition, bind, Except.bind] at h
  iterate 5 (all_goals try split at h)
  all_goals first
    | exact Except.noConfusion h
    | (injection h with h2; rw [← h2])

theorem rowsToPositions_forward {cols : List String} {rs : List Row}
    {out : List Position} (h : rowsToPositions cols rs = .ok out) :
    ∀ p ∈ out, ∃ r ∈ rs, rowToPosition cols r = .ok p := by
  induction rs generalizing out with
  | nil =>
    simp only [rowsToPositions] at h
    injection h with h2
    subst h2
    intro p hp
    cases hp
  | cons r rest ih =>
    simp only [rowsToPositions, bind, Except.bind] at h
    split at h
    · exact Except.noConfusion h
    · rename_i p0 heq
      split at h
      · exact Except.noConfusion h
      · rename_i ps heq2
        injection h with h2
        subst h2
        intro p hp
        rcases List.mem_cons.mp hp with hp | hp
        · exact ⟨r, List.mem_cons_self _ _, hp ▸ heq⟩
        · obtain ⟨r', hr', hok⟩ := ih heq2 p hp
          exact ⟨r', List.mem_cons_of_mem _ hr', hok⟩

theorem rowsToPositions_backward {cols : List String} {rs : List Row}
    {out : List Position} (h : rowsToPositions cols rs = .ok out) :
    ∀ r ∈ rs, ∃ p ∈ out, rowToPosition cols r = .ok p := by
  induction rs generalizing out with
  | nil =>
    intro r hr
    cases hr
  | cons r0 rest ih =>
    simp only [rowsToPositions, bind, Except.bind] at h
    split at h
    · exact Except.noConfusion h
    · rename_i p0 heq
      split at h
      · exact Except.noConfusion h
      · rename_i ps heq2
        injection h with h2
        subst h2
        intro r hr
        rcases List.mem_cons.mp hr with hr | hr
        · exact ⟨p0, List.mem_cons_self _ _, hr ▸ heq⟩
        · obtain ⟨p, hp, hok⟩ := ih heq2 r hr
          exact ⟨p, List.mem_cons_of_mem _ hp, hok⟩

theorem mem_ticker_addAllUnique (rows : List Position) (t : String) :
    (∃ p ∈ addAllUnique rows, p.ticker = t) ↔
      ∃ p ∈ rows, p.ticker = t := by
  have key : ∀ (rs : List Position) (acc : List Position),
      (∃ p ∈ rs.foldl
          (fun acc p =>
            (acc.filter (fun x => x.ticker != p.ticker)) ++ [p]) acc,
        p.ticker = t) ↔
      ((∃ p ∈ acc, p.ticker = t) ∨ ∃ p ∈ rs, p.ticker = t) := by
    intro rs
    induction rs with
    | nil => simp
    | cons p0 rest ih =>
      intro acc
      rw [List.foldl_cons, ih]
      constructor
      · rintro (hstep | hrest)
        · obtain ⟨p, hp, hpt⟩ := hstep
          rcases List.mem_append.mp hp with hp | hp
          · exact Or.inl ⟨p, (List.mem_filter.mp hp).1, hpt⟩
          · rw [List.mem_singleton] at hp
            exact Or.inr ⟨p0, List.mem_cons_self _ _, hp ▸ hpt⟩
        · obtain ⟨p, hp, hpt⟩ := hrest
          exact Or.inr ⟨p, List.mem_cons_of_mem _ hp, hpt⟩
      · rintro (hacc | hcons)
        · obtain ⟨p, hp, hpt⟩ := hacc
          by_cases hp0 : p.ticker = p0.ticker
          · exact Or.inl ⟨p0, List.mem_append.mpr
              (Or.inr (List.mem_singleton.mpr rfl)), hp0 ▸ hpt⟩
          · refine Or.inl ⟨p, List.mem_append.mpr (Or.inl ?_), hpt⟩
            exact List.mem_filter.mpr ⟨hp, by simpa using hp0⟩
        · obtain ⟨p, hp, hpt⟩ := hcons
          rcases List.mem_cons.mp hp with hp | hp
          · exact Or.inl ⟨p0, List.mem_append.mpr
              (Or.inr (List.mem_singleton.mpr rfl)), hp ▸ hpt⟩
          · exact Or.inr ⟨p, hp, hpt⟩
  rw [addAllUnique, key]
  simp

/-- Claim C6: bulk import is a destructive replace.  After importing file A
and then file B, the ledger holds exactly the tickers of B's normalized
rows; nothing from A survives unless B also lists it. -/
theorem claim_C6_import_replaces (db dbA dbB : List Position)
    (A B nB : DataFrame) (_hA : importExcel db A = .ok dbA)
    (hB : importExcel dbA B = .ok dbB)
    (hnB : df_from_excel_bytes B = .ok nB) :
    ∀ t, (∃ p ∈ dbB, p.ticker = t) ↔
      ∃ r ∈ nB.rows, upperStr (cellStr (getCell r "ticker")) = t := by
  simp only [importExcel, hnB, Except.bind] at hB
  simp only [load_df_into_db, bind, Except.bind] at hB
  split at hB
  · exact Except.noConfusion hB
  · rename_i rows heq
    injection hB with h2
    subst h2
    intro t
    rw [mem_ticker_addAllUnique]
    constructor
    · rintro ⟨p, hp, hpt⟩
      obtain ⟨r, hr, hok⟩ := rowsToPositions_forward heq p hp
      exact ⟨r, hr, by rw [← rowToPosition_ticker hok, hpt]⟩
    · rintro ⟨r, hr, hticker⟩
      obtain ⟨p, hp, hok⟩ := rowsToPositions_backward heq r hr
      exact ⟨p, hp, by rw [rowToPosition_ticker hok, hticker]⟩

/-- Witness for C6: importing an AAPL sheet and then an MSFT sheet leaves no
AAPL row. -/
theorem claim_C6_witness :
    (∃ p ∈ [(⟨"MSFT", 2, none, none⟩ : Position)], p.ticker = "AAPL") ↔
      ∃ r ∈ [[(("ticker" : String), Cell.str "MSFT"),
          ("qty", Cell.num 2)]],
        upperStr (cellStr (getCell r "ticker")) = "AAPL" :=
  claim_C6_import_replaces [] [⟨"AAPL", 1, none, none⟩]
    [⟨"MSFT", 2, none, none⟩]
    ⟨["ticker", "qty"], [[("ticker", .str "AAPL"), ("qty", .num 1)]]⟩
    ⟨["ticker", "qty"], [[("ticker", .str "msft"), ("qty", .num 2)]]⟩
    ⟨["ticker", "qty"], [[("ticker", .str "MSFT"), ("qty", .num 2)]]⟩
    (by decide) (by decide) (by decide) "AAPL"

theorem upload_prefix_ne_empty (x : String) :
    ("Upload/parse error: " ++ x) ≠ "" := by
  intro h
  have hlen := congrArg String.length h
  rw [String.length_append] at hlen
  have h20 : ("Upload/parse error: " : String).length = 20 := rfl
  rw [h20] at hlen
  have h0 : ("" : String).length = 0 := rfl
  rw [h0] at hlen
  omega

/-- Claim C7: each ingestion path raises its schema error exactly when the
required columns are absent after alias resolution (`{ticker, qty}` for the
ledger path; `{ticker, qty, exec_price, current_price}` for the full
pipeline), and the upload endpoint converts every parse or schema error
into an HTTP 400 with a non-empty detail message, leaving the stored table
unchanged. -/
theorem claim_C7_schema_errors :
    (∀ df : DataFrame,
      (∃ e, df_from_excel_bytes df = .error e) ↔
        ¬ ("ticker" ∈ (df.columns.map renameMin).map lowerStr ∧
           "qty" ∈ (df.columns.map renameMin).map lowerStr)) ∧
    (∀ df : DataFrame,
      (∃ e, loadExcelToDf df = .error e) ↔
        ¬ ∀ c ∈ (["ticker", "qty", "exec_price", "current_price"] :
            List String),
          c ∈ df.columns.map (applyRename (renameMapOf df.columns))) ∧
    (∀ prior df e, loadExcelToDf df = .error e →
      ∃ d, upload_portfolio prior (.ok df) = (.badRequest d, prior) ∧
        d ≠ "") ∧
    (∀ prior m, upload_portfolio prior (.error m) =
      (.badRequest ("Upload/parse error: " ++ m), prior)) ∧
    (∀ prior df out, loadExcelToDf df = .ok out →
      upload_portfolio prior (.ok df) = (.ok out.rows.length, some out)) := by
  refine ⟨fun df => ?_, fun df => ?_, fun prior df e h => ?_,
    fun prior m => rfl, fun prior df out h => ?_⟩
  · by_cases hc : ("ticker" ∈ (mapCols renameMin df).columns.map lowerStr ∧
        "qty" ∈ (mapCols renameMin df).columns.map lowerStr)
    · constructor
      · rintro ⟨e, he⟩
        simp only [df_from_excel_bytes, if_pos hc] at he
        exact Except.noConfusion he
      · intro hn
        exact absurd hc hn
    · constructor
      · intro _
        exact fun hand => hc hand
      · intro _
        exact ⟨.schemaError "Excel must include columns: ticker, qty",
          by simp only [df_from_excel_bytes, if_neg hc]⟩
  · by_cases hm : requiredMissing
        ((mapCols (applyRename (renameMapOf df.columns)) df).columns) = []
    · constructor
      · rintro ⟨e, he⟩
        simp only [loadExcelToDf, if_pos hm] at he
        exact Except.noConfusion he
      · intro hn
        exact absurd ((requiredMissing_eq_nil_iff _).mp hm) hn
    · constructor
      · intro _
        intro hall
        exact hm ((requiredMissing_eq_nil_iff _).mpr hall)
      · intro _
        refine ⟨.schemaError ("Missing required columns: " ++
          String.intercalate ", "
            (requiredMissing
              ((mapCols (applyRename (renameMapOf df.columns))
                df).columns))), ?_⟩
        simp only [loadExcelToDf, if_neg hm]
  · refine ⟨"Upload/parse error: " ++ errDetail e, ?_, upload_prefix_ne_empty _⟩
    simp only [upload_portfolio, h]
  · simp only [upload_portfolio, h]

/-- Witness for C7: a frame with no recognizable columns fails the minimal
check, and a frame missing the price columns is turned into a 400. -/
theorem claim_C7_witness :
    ((∃ e, df_from_excel_bytes (⟨["foo"], []⟩ : DataFrame) = .error e) ↔
      ¬ ("ticker" ∈ ((["foo"] : List String).map renameMin).map lowerStr ∧
         "qty" ∈ ((["foo"] : List String).map renameMin).map lowerStr)) ∧
    (∃ d, upload_portfolio none (.ok ⟨["ticker"], []⟩) =
      (.badRequest d, none) ∧ d ≠ "") :=
  ⟨claim_C7_schema_errors.1 ⟨["foo"], []⟩,
   claim_C7_schema_errors.2.2.1 none ⟨["ticker"], []⟩
     (.schemaError
       "Missing required columns: qty, exec_price, current_price")
     (by decide)⟩

theorem rows_setCol (df : DataFrame) (c : String) (g : Row → Cell) :
    (setCol df c g).rows = df.rows.map (fun r => setCell r c (g r)) := rfl

theorem columns_setCol_mem (df : DataFrame) (c : String) (g : Row → Cell)
    (h : c ∈ df.columns) : (setCol df c g).columns = df.columns := by
  simp only [setCol, if_pos h]

theorem rows_mapCols (f : String → String) (df : DataFrame) :
    (mapCols f df).rows = df.rows.map (mapColsRow f) := rfl

theorem getCell_qty_rowCoerce (cols2 : List String) (r : Row)
    (hq : "qty" ∈ cols2) :
    getCell (rowCoerce NUMERIC_COLS cols2 r) "qty" =
      coerceCell (getCell r "qty") := by
  rw [show NUMERIC_COLS = "qty" :: ["exec_price", "current_price",
    "daily_change_pct", "since_traded_pct"] from rfl]
  rw [rowCoerce, if_pos hq]
  rw [getCell_rowCoerce_not_mem ["exec_price", "current_price",
    "daily_change_pct", "since_traded_pct"] cols2 _ "qty" (by decide)]
  exact getCell_setCell_self _ _ _

set_option maxHeartbeats 1000000 in
/-- Claim C5 (amended): on the full pipeline (`_load_excel_to_df`) every
surviving row carries a ticker that is the strip-then-uppercase of its
input text and a numeric qty (rows whose qty is absent after coercion are
dropped; a missing ticker is first stringified to `"nan"`, so it never
causes a drop), and the price columns hold numbers or absent values only.
On the ledger path (`df_from_excel_bytes`) no row is dropped, tickers are
uppercased but not trimmed, and a non-numeric qty becomes the number `0.0`
rather than absent — see the counterexample. -/
theorem claim_C5_amended_normalization :
    (∀ df df', loadExcelToDf df = .ok df' → ∀ r ∈ df'.rows,
      (∃ x, getCell r "ticker" = .str (upperStr (stripStr x))) ∧
      (∃ q, getCell r "qty" = .num q) ∧
      ((∃ q, getCell r "exec_price" = .num q) ∨
        getCell r "exec_price" = .blank) ∧
      ((∃ q, getCell r "current_price" = .num q) ∨
        getCell r "current_price" = .blank)) ∧
    (∀ df df', df_from_excel_bytes df = .ok df' →
      df'.rows.length = df.rows.length ∧
      ∀ r ∈ df'.rows,
        (∃ x, getCell r "ticker" = .str (upperStr x)) ∧
        (∃ q, getCell r "qty" = .num q)) := by
  constructor
  · intro df df' h r hr
    simp only [loadExcelToDf] at h
    split at h
    · rename_i hm
      injection h with h2
      subst h2
      rw [requiredMissing_eq_nil_iff] at hm
      have hmt := hm "ticker" (by decide)
      have hmq := hm "qty" (by decide)
      have hme := hm "exec_price" (by decide)
      have hmc := hm "current_price" (by decide)
      rw [rows_setCol, rows_setCol] at hr
      obtain ⟨r5, hr5, rfl⟩ := List.mem_map.mp hr
      obtain ⟨r4, hr4, rfl⟩ := List.mem_map.mp hr5
      obtain ⟨hr3, hkeep⟩ := List.mem_filter.mp hr4
      rw [rows_coerceNumericCols, rows_setCol,
        columns_setCol_mem _ _ _ hmt] at hr3
      obtain ⟨r1, hr1, rfl⟩ := List.mem_map.mp hr3
      obtain ⟨r0, hr0, rfl⟩ := List.mem_map.mp hr1
      rw [getCell_qty_rowCoerce _ _ hmq,
        getCell_setCell_other _ _ _ _
          (by decide : ("qty" : String) ≠ "ticker")] at hkeep
      refine ⟨?_, ?_, ?_, ?_⟩
      · rw [getCell_setCell_other _ _ _ _
            (by decide : ("ticker" : String) ≠ "pnl_pct"),
          getCell_setCell_other _ _ _ _
            (by decide : ("ticker" : String) ≠ "market_value"),
          getCell_rowCoerce_not_mem NUMERIC_COLS _ _ "ticker" (by decide),
          getCell_setCell_self]
        exact ⟨cellStr (getCell r0 "ticker"), rfl⟩
      · rw [getCell_setCell_other _ _ _ _
            (by decide : ("qty" : String) ≠ "pnl_pct"),
          getCell_setCell_other _ _ _ _
            (by decide : ("qty" : String) ≠ "market_value"),
          getCell_qty_rowCoerce _ _ hmq,
          getCell_setCell_other _ _ _ _
            (by decide : ("qty" : String) ≠ "ticker")]
        rcases coerceCell_shape (getCell r0 "qty") with hsh | hsh
        · exact hsh
        · exfalso
          simp only [Bool.and_eq_true] at hkeep
          have hnq := hkeep.2
          rw [hsh] at hnq
          simp [notna] at hnq
      · rw [getCell_setCell_other _ _ _ _
            (by decide : ("exec_price" : String) ≠ "pnl_pct"),
          getCell_setCell_other _ _ _ _
            (by decide : ("exec_price" : String) ≠ "market_value")]
        exact rowCoerce_mem_shape NUMERIC_COLS _ "exec_price" hme _
          (by decide)
      · rw [getCell_setCell_other _ _ _ _
            (by decide : ("current_price" : String) ≠ "pnl_pct"),
          getCell_setCell_other _ _ _ _
            (by decide : ("current_price" : String) ≠ "market_value")]
        exact rowCoerce_mem_shape NUMERIC_COLS _ "current_price" hmc _
          (by decide)
    · exact Except.noConfusion h
  · intro df df' h
    simp only [df_from_excel_bytes] at h
    split at h
    · injection h with h2
      subst h2
      constructor
      · rw [rows_setCol, rows_setCol, rows_mapCols, rows_mapCols]
        simp [List.length_map]
      · intro r hr
        rw [rows_setCol, rows_setCol] at hr
        obtain ⟨rq, hrq, rfl⟩ := List.mem_map.mp hr
        obtain ⟨rt, hrt, rfl⟩ := List.mem_map.mp hrq
        constructor
        · rw [getCell_setCell_other _ _ _ _
              (by decide : ("ticker" : String) ≠ "qty"),
            getCell_setCell_self]
          exact ⟨cellStr (getCell rt "ticker"), rfl⟩
        · rw [getCell_setCell_self]
          exact fillZeroCell_num _
    · exact Except.noConfusion h

/-- Witness for C5: a concrete sheet through each ingestion path. -/
theorem claim_C5_witness :
    ((∃ x, getCell [("ticker", Cell.str "AAPL"), ("qty", Cell.num 10),
        ("exec_price", Cell.blank), ("current_price", Cell.blank),
        ("market_value", Cell.blank), ("pnl_pct", Cell.blank)] "ticker" =
        .str (upperStr (stripStr x))) ∧
      (∃ q, getCell [("ticker", Cell.str "AAPL"), ("qty", Cell.num 10),
        ("exec_price", Cell.blank), ("current_price", Cell.blank),
        ("market_value", Cell.blank), ("pnl_pct", Cell.blank)] "qty" =
        .num q) ∧
      ((∃ q, getCell [("ticker", Cell.str "AAPL"), ("qty", Cell.num 10),
        ("exec_price", Cell.blank), ("current_price", Cell.blank),
        ("market_value", Cell.blank), ("pnl_pct", Cell.blank)]
          "exec_price" = .num q) ∨
        getCell [("ticker", Cell.str "AAPL"), ("qty", Cell.num 10),
          ("exec_price", Cell.blank), ("current_price", Cell.blank),
          ("market_value", Cell.blank), ("pnl_pct", Cell.blank)]
            "exec_price" = .blank) ∧
      ((∃ q, getCell [("ticker", Cell.str "AAPL"), ("qty", Cell.num 10),
        ("exec_price", Cell.blank), ("current_price", Cell.blank),
        ("market_value", Cell.blank), ("pnl_pct", Cell.blank)]
          "current_price" = .num q) ∨
        getCell [("ticker", Cell.str "AAPL"), ("qty", Cell.num 10),
          ("exec_price", Cell.blank), ("current_price", Cell.blank),
          ("market_value", Cell.blank), ("pnl_pct", Cell.blank)]
            "current_price" = .blank)) ∧
    ((⟨["ticker", "qty"],
        [[("ticker", Cell.str " AAPL "), ("qty", Cell.num 0)]]⟩ :
        DataFrame).rows.length =
      (⟨["ticker", "qty"],
        [[("ticker", Cell.str " aapl "), ("qty", Cell.str "abc")]]⟩ :
        DataFrame).rows.length) ∧
    ((∃ x, getCell [("ticker", Cell.str " AAPL "), ("qty", Cell.num 0)]
        "ticker" = .str (upperStr x)) ∧
      (∃ q, getCell [("ticker", Cell.str " AAPL "), ("qty", Cell.num 0)]
        "qty" = .num q)) := by
  refine ⟨?_, ?_, ?_⟩
  · exact claim_C5_amended_normalization.1
      ⟨["Ticker (RIC)", "qunatity", "Execution Price", "Current Price"],
        [[("Ticker (RIC)", .str " aapl "), ("qunatity", .num 10),
          ("Execution Price", .blank), ("Current Price", .blank)]]⟩
      ⟨["ticker", "qty", "exec_price", "current_price", "market_value",
        "pnl_pct"],
        [[("ticker", .str "AAPL"), ("qty", .num 10),
          ("exec_price", .blank), ("current_price", .blank),
          ("market_value", .blank), ("pnl_pct", .blank)]]⟩
      (by decide) _ (by decide)
  · exact (claim_C5_amended_normalization.2
      ⟨["ticker", "qty"],
        [[("ticker", .str " aapl "), ("qty", .str "abc")]]⟩
      ⟨["ticker", "qty"],
        [[("ticker", .str " AAPL "), ("qty", .num 0)]]⟩
      (by decide)).1
  · exact (claim_C5_amended_normalization.2
      ⟨["ticker", "qty"],
        [[("ticker", .str " aapl "), ("qty", .str "abc")]]⟩
      ⟨["ticker", "qty"],
        [[("ticker", .str " AAPL "), ("qty", .num 0)]]⟩
      (by decide)).2 _ (by decide)
